import Mathlib

/-!
Verification of the gooddata-js execution compiler and result pager.

JavaScript strings are modelled as lists of characters (`JSStr`); JS
objects are modelled as Lean structures whose optional fields are
`Option`s (an absent field, read by lodash `get` as `undefined`, is
`none`).  The `md5` npm dependency is implemented faithfully below so
that generated-metric identifiers are fully executable.
-/

namespace GD

/-- Model of a JavaScript string: a list of UTF-16-ish characters. -/
abbrev JSStr := List Char

/-- Convert a Lean string literal into the JS-string model. -/
def str (s : String) : JSStr := s.toList

/-- Interpolation of a possibly-undefined string into a JS template
literal: `undefined` prints as "undefined". -/
def showOpt (o : Option JSStr) : JSStr := o.getD (str "undefined")

/-- JS String.prototype.toLowerCase (ASCII range, as used for
aggregation names). -/
def lowerJS (s : JSStr) : JSStr := s.map Char.toLower

/-- JS String.prototype.toUpperCase (ASCII range). -/
def upperJS (s : JSStr) : JSStr := s.map Char.toUpper

/-- Array.prototype.join with a separator. -/
def joinSep (sep : JSStr) : List JSStr → JSStr
  | [] => []
  | [x] => x
  | x :: xs => x ++ sep ++ joinSep sep xs

/-- JS String.prototype.split by a single separator character. -/
def splitCh (sep : Char) : List Char → List (List Char)
  | [] => [[]]
  | c :: cs =>
    if c = sep then [] :: splitCh sep cs
    else
      match splitCh sep cs with
      | [] => [[c]]
      | g :: gs => (c :: g) :: gs

/-- Positional destructuring of a split result inside a JS template
literal: a missing position interpolates as "undefined". -/
def jsIdx (l : List JSStr) (i : Nat) : JSStr := showOpt (l.get? i)

/-! ## MD5 (the `md5` npm package: hex digest of the UTF-8 bytes) -/

/-- Truncate to a 32-bit word. -/
def w32 (n : Nat) : Nat := n % 4294967296

/-- 32-bit left rotation. -/
def lrot (x s : Nat) : Nat := w32 (x <<< s) ||| (w32 x >>> (32 - s))

/-- UTF-8 encoding of one character. -/
def utf8Char (c : Char) : List Nat :=
  let n := c.toNat
  if n < 128 then [n]
  else if n < 2048 then [192 ||| (n >>> 6), 128 ||| (n &&& 63)]
  else if n < 65536 then
    [224 ||| (n >>> 12), 128 ||| ((n >>> 6) &&& 63), 128 ||| (n &&& 63)]
  else
    [240 ||| (n >>> 18), 128 ||| ((n >>> 12) &&& 63),
     128 ||| ((n >>> 6) &&& 63), 128 ||| (n &&& 63)]

/-- UTF-8 encoding of a JS string. -/
def utf8 (s : JSStr) : List Nat := s.flatMap utf8Char

/-- MD5 round constants (floor of 2^32 times the absolute sine table). -/
def md5K : Array Nat := #[
  3614090360, 3905402710, 606105819, 3250441966, 4118548399, 1200080426, 2821735955, 4249261313,
  1770035416, 2336552879, 4294925233, 2304563134, 1804603682, 4254626195, 2792965006, 1236535329,
  4129170786, 3225465664, 643717713, 3921069994, 3593408605, 38016083, 3634488961, 3889429448,
  568446438, 3275163606, 4107603335, 1163531501, 2850285829, 4243563512, 1735328473, 2368359562,
  4294588738, 2272392833, 1839030562, 4259657740, 2763975236, 1272893353, 4139469664, 3200236656,
  681279174, 3936430074, 3572445317, 76029189, 3654602809, 3873151461, 530742520, 3299628645,
  4096336452, 1126891415, 2878612391, 4237533241, 1700485571, 2399980690, 4293915773, 2240044497,
  1873313359, 4264355552, 2734768916, 1309151649, 4149444226, 3174756917, 718787259, 3951481745]

/-- MD5 per-round shift amounts. -/
def md5S : Array Nat := #[
  7, 12, 17, 22, 7, 12, 17, 22, 7, 12, 17, 22, 7, 12, 17, 22,
  5, 9, 14, 20, 5, 9, 14, 20, 5, 9, 14, 20, 5, 9, 14, 20,
  4, 11, 16, 23, 4, 11, 16, 23, 4, 11, 16, 23, 4, 11, 16, 23,
  6, 10, 15, 21, 6, 10, 15, 21, 6, 10, 15, 21, 6, 10, 15, 21]

/-- MD5 message padding: append 0x80, zero-pad to 56 mod 64, then the
64-bit little-endian bit length. -/
def md5Pad (msg : List Nat) : List Nat :=
  let len := msg.length
  let padLen := (55 + 64 - len % 64) % 64 + 1
  let bitLen := (len * 8) % 18446744073709551616
  msg ++ (128 :: List.replicate (padLen - 1) 0)
      ++ (List.range 8).map (fun i => (bitLen >>> (8 * i)) % 256)

/-- Little-endian 32-bit words of one 64-byte chunk. -/
def md5Words (chunk : List Nat) : Array Nat :=
  ((List.range 16).map (fun j =>
    (chunk.getD (4 * j) 0) + 256 * (chunk.getD (4 * j + 1) 0)
      + 65536 * (chunk.getD (4 * j + 2) 0)
      + 16777216 * (chunk.getD (4 * j + 3) 0))).toArray

/-- One MD5 round: update the (A, B, C, D) state with round index i. -/
def md5Round (M : Array Nat) (st : Nat × Nat × Nat × Nat) (i : Nat) :
    Nat × Nat × Nat × Nat :=
  let (a, b, c, d) := st
  let (f, g) :=
    if i < 16 then ((b &&& c) ||| ((4294967295 ^^^ b) &&& d), i)
    else if i < 32 then ((d &&& b) ||| ((4294967295 ^^^ d) &&& c), (5 * i + 1) % 16)
    else if i < 48 then (b ^^^ c ^^^ d, (3 * i + 5) % 16)
    else (c ^^^ (b ||| (4294967295 ^^^ d)), (7 * i) % 16)
  let f' := w32 (f + a + md5K.getD i 0 + M.getD g 0)
  (d, w32 (b + lrot f' (md5S.getD i 0)), b, c)

/-- Process one 64-byte chunk. -/
def md5Chunk (st : Nat × Nat × Nat × Nat) (chunk : List Nat) :
    Nat × Nat × Nat × Nat :=
  let M := md5Words chunk
  let (a, b, c, d) := (List.range 64).foldl (md5Round M) st
  let (a0, b0, c0, d0) := st
  (w32 (a0 + a), w32 (b0 + b), w32 (c0 + c), w32 (d0 + d))

/-- Split a padded message into 64-byte chunks. -/
def chunks64 : List Nat → List (List Nat)
  | [] => []
  | a :: as => (a :: as).take 64 :: chunks64 (as.drop 63)
termination_by l => l.length
decreasing_by simp [List.length_drop]; omega

/-- MD5 digest of a byte list: 16 output bytes. -/
def md5Bytes (msg : List Nat) : List Nat :=
  let (a, b, c, d) :=
    (chunks64 (md5Pad msg)).foldl md5Chunk
      (1732584193, 4023233417, 2562383102, 271733878)
  [a, b, c, d].flatMap (fun w => (List.range 4).map (fun i => (w >>> (8 * i)) % 256))

/-- Lowercase hex digit. -/
def hexDigit (n : Nat) : Char := "0123456789abcdef".toList.getD n '0'

/-- Hex string of a byte list. -/
def toHex (bs : List Nat) : JSStr :=
  bs.flatMap (fun b => [hexDigit (b / 16), hexDigit (b % 16)])

/-- The `md5` npm function: hex digest of the UTF-8 encoded string. -/
def md5 (s : JSStr) : JSStr := toHex (md5Bytes (utf8 s))

/-! ## Shared values and helpers -/

/-- A JavaScript primitive value as it occurs in filter bounds: a string,
a number (date-filter bounds are integral), or NaN. An absent value
(`undefined`) is `Option.none` at the use sites. -/
inductive JSVal where
  | vstr (s : JSStr)
  | vnum (n : Int)
  | vnan
deriving DecidableEq, Repr

/-- lodash isEmpty of a possibly-undefined array: `undefined` and the
empty array are both empty. -/
def jsIsEmptyOpt (o : Option (List α)) : Bool :=
  match o with
  | none => true
  | some l => l.isEmpty

/-- The constant MAX_TITLE_LENGTH. -/
def MAX_TITLE_LENGTH : Nat := 1000

/-- The constant POP_SUFFIX. -/
def POP_SUFFIX : JSStr := str " - previous year"

/-- The constant CONTRIBUTION_METRIC_FORMAT. -/
def CONTRIBUTION_METRIC_FORMAT : JSStr := str "#,##0.00%"

/-- getMetricTitle from experimental-executions.js: appends the suffix,
truncating the title with an ellipsis (keeping a closing parenthesis)
when title plus suffix would exceed MAX_TITLE_LENGTH. A JS string is
truthy iff non-empty, hence the `title ≠ []` guard. -/
def getMetricTitle (suffix title : JSStr) : JSStr :=
  let maxLength := MAX_TITLE_LENGTH - suffix.length
  if title ≠ [] ∧ maxLength < title.length then
    if title.getLast? = some ')' then
      title.take (maxLength - 2) ++ str "…)" ++ suffix
    else
      title.take (maxLength - 1) ++ str "…" ++ suffix
  else title ++ suffix

/-- getBaseMetricTitle: getMetricTitle with the empty suffix. -/
def getBaseMetricTitle (title : JSStr) : JSStr := getMetricTitle [] title

/-- getPoPMetricTitle: getMetricTitle with POP_SUFFIX. -/
def getPoPMetricTitle (title : JSStr) : JSStr := getMetricTitle POP_SUFFIX title

/-- getGeneratedMetricHash: md5 of the template
expression#title#format. -/
def getGeneratedMetricHash (title format expression : JSStr) : JSStr :=
  md5 (expression ++ str "#" ++ title ++ str "#" ++ format)

/-! ## Measure filters (§3 data model: a tagged union) -/

namespace V1

/-- A measure filter of the first (URI-string) module version: one of
positiveAttributeFilter, negativeAttributeFilter, absoluteDateFilter,
relativeDateFilter. Optional fields read through lodash get. -/
inductive MetricFilter where
  | positiveAttributeFilter (displayForm : Option JSStr) (in_ : Option (List JSStr))
  | negativeAttributeFilter (displayForm : Option JSStr) (notIn : Option (List JSStr))
  | absoluteDateFilter (from_ to_ : Option JSVal)
  | relativeDateFilter (from_ to_ : Option JSVal)
deriving DecidableEq

/-- isEmptyFilter: attribute filters with an empty (or absent) element
list, and date filters with neither bound, are empty. -/
def isEmptyFilter (f : MetricFilter) : Bool :=
  match f with
  | .positiveAttributeFilter _ in_ => jsIsEmptyOpt in_
  | .negativeAttributeFilter _ notIn => jsIsEmptyOpt notIn
  | .absoluteDateFilter from_ to_ => from_ = none && to_ = none
  | .relativeDateFilter from_ to_ => from_ = none && to_ = none

/-- Content of definition.measureDefinition. -/
structure MeasureDefinition where
  item : Option JSStr := none
  aggregation : Option JSStr := none
  filters : Option (List MetricFilter) := none
  computeRatio : Option Bool := none
deriving DecidableEq

/-- Content of a measure definition object. -/
structure Definition where
  measureDefinition : Option MeasureDefinition := none
deriving DecidableEq

/-- A measure of the first module version. -/
structure Measure where
  localIdentifier : Option JSStr := none
  definition : Option Definition := none
  title : Option JSStr := none
  format : Option JSStr := none
deriving DecidableEq

/-- getDefinition: lodash get of definition.measureDefinition with the
empty object as default. -/
def getDefinition (m : Measure) : MeasureDefinition :=
  (m.definition.bind (·.measureDefinition)).getD {}

/-- getMeasureFilters: the filters list, defaulting to empty. -/
def getMeasureFilters (m : Measure) : List MetricFilter :=
  (getDefinition m).filters.getD []

/-- getAggregation: the aggregation name lower-cased, defaulting to the
empty string. -/
def getAggregation (m : Measure) : JSStr :=
  lowerJS ((getDefinition m).aggregation.getD [])

/-- allFiltersEmpty: every measure filter is empty. -/
def allFiltersEmpty (m : Measure) : Bool :=
  (getMeasureFilters m).all isEmptyFilter

/-- isDerived: has an aggregation or some non-empty filter. -/
def isDerived (m : Measure) : Bool :=
  !(getAggregation m).isEmpty || !allFiltersEmpty m

/-- getAttrFilterExpression: renders an attribute filter, or null when
the element list is empty. The negative branch is detected first, as in
the source. -/
def getAttrFilterExpression (f : MetricFilter) : Option JSStr :=
  match f with
  | .negativeAttributeFilter displayForm notIn =>
    let elements := notIn.getD []
    if elements.isEmpty then none
    else some (str "[" ++ showOpt displayForm ++ str "] NOT IN ("
      ++ joinSep (str ",") (elements.map (fun e => str "[" ++ e ++ str "]")) ++ str ")")
  | .positiveAttributeFilter displayForm in_ =>
    let elements := in_.getD []
    if elements.isEmpty then none
    else some (str "[" ++ showOpt displayForm ++ str "] IN ("
      ++ joinSep (str ",") (elements.map (fun e => str "[" ++ e ++ str "]")) ++ str ")")
  | _ => none

/-- getDateFilterExpression: a documented no-op returning the empty
string. -/
def getDateFilterExpression (_f : MetricFilter) : JSStr := []

/-- getFilterExpression: attribute filters render via
getAttrFilterExpression, date filters via the empty-string no-op. -/
def getFilterExpression (f : MetricFilter) : Option JSStr :=
  match f with
  | .positiveAttributeFilter _ _ | .negativeAttributeFilter _ _ => getAttrFilterExpression f
  | _ => some (getDateFilterExpression f)

/-- The truthy rendered filter expressions (lodash
filter(map(...), e => !!e): drops null and the empty string). -/
def whereParts (fs : List MetricFilter) : List JSStr :=
  fs.filterMap (fun f =>
    match getFilterExpression f with
    | none => none
    | some s => if s.isEmpty then none else some s)

/-- getGeneratedMetricExpression: SELECT with optional aggregation and
WHERE clause. -/
def getGeneratedMetricExpression (m : Measure) : JSStr :=
  let aggregation := upperJS (getAggregation m)
  let objectUri := (getDefinition m).item
  let wh := whereParts (getMeasureFilters m)
  str "SELECT "
    ++ (if aggregation.isEmpty then str "[" ++ showOpt objectUri ++ str "]"
        else aggregation ++ str "([" ++ showOpt objectUri ++ str "])")
    ++ (if wh.isEmpty then [] else str " WHERE " ++ joinSep (str " AND ") wh)

/-- getMeasureType: metric for no aggregation, attribute for count,
fact otherwise. -/
def getMeasureType (m : Measure) : JSStr :=
  if getAggregation m = [] then str "metric"
  else if getAggregation m = str "count" then str "attribute"
  else str "fact"

/-- The filter marker of a generated identifier (the local `prefix` of
getGeneratedMetricIdentifier): empty when there are no filters or all
filters are empty, otherwise _filtered. -/
def filteredMarker (m : Measure) : JSStr :=
  if (getMeasureFilters m).isEmpty || allFiltersEmpty m then [] else str "_filtered"

/-- getGeneratedMetricIdentifier: type, positional URI parts, content
hash, filter marker and aggregation tag. The array destructuring takes
split positions 3 and 5, interpolating undefined for a missing part. -/
def getGeneratedMetricIdentifier (item : Measure) (aggregation : JSStr)
    (expressionCreator : Measure → JSStr) (hasher : JSStr → JSStr) : JSStr :=
  let parts := splitCh '/' ((getDefinition item).item.getD [])
  let identifier := jsIdx parts 3 ++ str "_" ++ jsIdx parts 5
  let hash := hasher (expressionCreator item)
  getMeasureType item ++ str "_" ++ identifier ++ str ".generated."
    ++ hash ++ filteredMarker item ++ str "_" ++ aggregation

/-- The element identifier produced by createDerivedMetric: the
generated identifier with the aggregation tag, the generated expression
and the title/format hasher of the measure. -/
def createDerivedMetricElement (m : Measure) : JSStr :=
  getGeneratedMetricIdentifier m (getAggregation m) getGeneratedMetricExpression
    (getGeneratedMetricHash (getBaseMetricTitle (showOpt m.title)) (showOpt m.format))

/-- The first-version category bucket item content destructured by
getPercentMetricExpression. -/
structure VisAttr where
  displayForm : Option JSStr := none
deriving DecidableEq

/-- The effect of lodash omit(measure, [ strings definition,
measureDefinition, filters]) in the first version: each string is a
separate top-level path, so the whole definition key is removed. -/
def omitDefinition (m : Measure) : Measure := { m with definition := none }

/-- getPercentMetricExpression (first version): ratio of the base
expression over its BY ALL total, where the derived base is the
generated expression of the omit result. -/
def getPercentMetricExpression (visualizationAttribute : Option VisAttr) (measure : Measure) : JSStr :=
  let base :=
    if isDerived measure then getGeneratedMetricExpression (omitDefinition measure)
    else str "SELECT [" ++ showOpt (getDefinition measure).item ++ str "]"
  let attributeUri := visualizationAttribute.bind (·.displayForm)
  let wh := whereParts (getMeasureFilters measure)
  let whereExpression := if wh.isEmpty then [] else str " WHERE " ++ joinSep (str " AND ") wh
  str "SELECT (" ++ base ++ whereExpression ++ str ") / (" ++ base
    ++ str " BY ALL [" ++ showOpt attributeUri ++ str "]" ++ whereExpression ++ str ")"

/-- Builder for a measure with the given nested measureDefinition
fields, used to state filter-variation properties. -/
def mkMeasure (title format item aggregation : Option JSStr) (computeRatio : Option Bool)
    (filters : Option (List MetricFilter)) : Measure :=
  { title := title, format := format,
    definition := some ⟨some ⟨item, aggregation, filters, computeRatio⟩⟩ }

end V1

namespace V2

/-- An object reference of the second module version: an object with an
optional uri. -/
structure Item where
  uri : Option JSStr := none
deriving DecidableEq

/-- A measure filter of the second module version: displayForm is an
object reference whose uri keys the attributes map. -/
inductive MetricFilter where
  | positiveAttributeFilter (displayForm : Option Item) (in_ : Option (List JSStr))
  | negativeAttributeFilter (displayForm : Option Item) (notIn : Option (List JSStr))
  | absoluteDateFilter (from_ to_ : Option JSVal)
  | relativeDateFilter (from_ to_ : Option JSVal)
deriving DecidableEq

/-- isEmptyFilter (second version, same logic as the first). -/
def isEmptyFilter (f : MetricFilter) : Bool :=
  match f with
  | .positiveAttributeFilter _ in_ => jsIsEmptyOpt in_
  | .negativeAttributeFilter _ notIn => jsIsEmptyOpt notIn
  | .absoluteDateFilter from_ to_ => from_ = none && to_ = none
  | .relativeDateFilter from_ to_ => from_ = none && to_ = none

/-- Content of definition.measureDefinition. -/
structure MeasureDefinition where
  item : Option Item := none
  aggregation : Option JSStr := none
  filters : Option (List MetricFilter) := none
  computeRatio : Option Bool := none
deriving DecidableEq

/-- Content of definition.popMeasureDefinition. -/
structure PopMeasureDefinition where
  measureIdentifier : Option JSStr := none
  popAttribute : Option Item := none
deriving DecidableEq

/-- A measure definition object: measureDefinition or
popMeasureDefinition (both optional, as lodash get sees them). -/
structure Definition where
  measureDefinition : Option MeasureDefinition := none
  popMeasureDefinition : Option PopMeasureDefinition := none
deriving DecidableEq

/-- A measure of the second module version. -/
structure Measure where
  localIdentifier : Option JSStr := none
  definition : Option Definition := none
  title : Option JSStr := none
  format : Option JSStr := none
deriving DecidableEq

/-- A visualization attribute (category) bucket item content. -/
structure VisualizationAttribute where
  localIdentifier : Option JSStr := none
  displayForm : Option Item := none
deriving DecidableEq

/-- A bucket item: may carry a measure or a visualizationAttribute key
(the source sniffs for either). -/
structure BucketItem where
  measure : Option Measure := none
  visualizationAttribute : Option VisualizationAttribute := none
deriving DecidableEq

/-- A bucket of a visualization metadata object. -/
structure Bucket where
  localIdentifier : Option JSStr := none
  items : List BucketItem := []
deriving DecidableEq

/-- A visualization metadata object (only the parts the dispatcher
reads). -/
structure MdObj where
  buckets : List Bucket := []
deriving DecidableEq

/-- getBuckets: the buckets with default empty list. -/
def getBuckets (mdObj : MdObj) : List Bucket := mdObj.buckets

/-- getMeasures: every bucket item carrying a measure, in traversal
order. -/
def getMeasures (buckets : List Bucket) : List Measure :=
  buckets.flatMap (fun b => b.items.filterMap (·.measure))

/-- getDefinition: lodash get of definition.measureDefinition with the
empty object as default. -/
def getDefinition (m : Measure) : MeasureDefinition :=
  (m.definition.bind (·.measureDefinition)).getD {}

/-- getPoPDefinition: lodash get of definition.popMeasureDefinition
with the empty object as default. -/
def getPoPDefinition (m : Measure) : PopMeasureDefinition :=
  (m.definition.bind (·.popMeasureDefinition)).getD {}

/-- getMeasureFilters: the filters list, defaulting to empty. -/
def getMeasureFilters (m : Measure) : List MetricFilter :=
  (getDefinition m).filters.getD []

/-- getAggregation: the aggregation name lower-cased, defaulting to the
empty string. -/
def getAggregation (m : Measure) : JSStr :=
  lowerJS ((getDefinition m).aggregation.getD [])

/-- allFiltersEmpty: every measure filter is empty. -/
def allFiltersEmpty (m : Measure) : Bool :=
  (getMeasureFilters m).all isEmptyFilter

/-- isDerived: has an aggregation or some non-empty filter. -/
def isDerived (m : Measure) : Bool :=
  !(getAggregation m).isEmpty || !allFiltersEmpty m

/-- The uri of the measure definition item (lodash get item.uri). -/
def itemUri (m : Measure) : Option JSStr :=
  (getDefinition m).item.bind (·.uri)

/-- The attributes map resolved per compilation: the value stored under
a display-form uri, carrying the owning attribute uri
(attribute.meta.uri). -/
def AttrMap := JSStr → Option Item

/-- getAttrUriFromMap: attribute.meta.uri of the map entry under the
given display-form uri. -/
def getAttrUriFromMap (dfUri : Option JSStr) (attributesMap : AttrMap) : Option JSStr :=
  (dfUri.bind attributesMap).bind (·.uri)

/-- getAttrFilterExpression (second version): the display-form uri is
resolved to an attribute uri through the attributes map. The negative
branch is detected first, as in the source. -/
def getAttrFilterExpression (attributesMap : AttrMap) (f : MetricFilter) : Option JSStr :=
  match f with
  | .negativeAttributeFilter displayForm notIn =>
    let attributeUri := getAttrUriFromMap (displayForm.bind (·.uri)) attributesMap
    let elements := notIn.getD []
    if elements.isEmpty then none
    else some (str "[" ++ showOpt attributeUri ++ str "] NOT IN ("
      ++ joinSep (str ",") (elements.map (fun e => str "[" ++ e ++ str "]")) ++ str ")")
  | .positiveAttributeFilter displayForm in_ =>
    let attributeUri := getAttrUriFromMap (displayForm.bind (·.uri)) attributesMap
    let elements := in_.getD []
    if elements.isEmpty then none
    else some (str "[" ++ showOpt attributeUri ++ str "] IN ("
      ++ joinSep (str ",") (elements.map (fun e => str "[" ++ e ++ str "]")) ++ str ")")
  | _ => none

/-- getFilterExpression (second version): attribute filters render via
getAttrFilterExpression, date filters via the empty-string no-op. -/
def getFilterExpression (attributesMap : AttrMap) (f : MetricFilter) : Option JSStr :=
  match f with
  | .positiveAttributeFilter _ _ | .negativeAttributeFilter _ _ =>
    getAttrFilterExpression attributesMap f
  | _ => some []

/-- The truthy rendered filter expressions. -/
def whereParts (attributesMap : AttrMap) (fs : List MetricFilter) : List JSStr :=
  fs.filterMap (fun f =>
    match getFilterExpression attributesMap f with
    | none => none
    | some s => if s.isEmpty then none else some s)

/-- getGeneratedMetricExpression (second version). -/
def getGeneratedMetricExpression (m : Measure) (attributesMap : AttrMap) : JSStr :=
  let aggregation := upperJS (getAggregation m)
  let objectUri := itemUri m
  let wh := whereParts attributesMap (getMeasureFilters m)
  str "SELECT "
    ++ (if aggregation.isEmpty then str "[" ++ showOpt objectUri ++ str "]"
        else aggregation ++ str "([" ++ showOpt objectUri ++ str "])")
    ++ (if wh.isEmpty then [] else str " WHERE " ++ joinSep (str " AND ") wh)

/-- The effect of lodash set(cloneDeep(measure),
definition.measureDefinition.filters path, empty list): the nested path
is created when missing and the filters are replaced by the empty
list. -/
def setEmptyFilters (m : Measure) : Measure :=
  let defn := m.definition.getD {}
  let md := defn.measureDefinition.getD {}
  { m with definition := some { defn with measureDefinition := some { md with filters := some [] } } }

/-- getPercentMetricExpression (second version): ratio of the
filters-removed base over its BY ALL total, the WHERE clause of the
measure appended to both sides. -/
def getPercentMetricExpression (category : Option VisualizationAttribute)
    (attributesMap : AttrMap) (measure : Measure) : JSStr :=
  let base :=
    if isDerived measure then getGeneratedMetricExpression (setEmptyFilters measure) attributesMap
    else str "SELECT [" ++ showOpt (itemUri measure) ++ str "]"
  let attributeUri :=
    getAttrUriFromMap (category.bind (fun c => c.displayForm.bind (·.uri))) attributesMap
  let wh := whereParts attributesMap (getMeasureFilters measure)
  let whereExpression := if wh.isEmpty then [] else str " WHERE " ++ joinSep (str " AND ") wh
  str "SELECT (" ++ base ++ whereExpression ++ str ") / (" ++ base
    ++ str " BY ALL [" ++ showOpt attributeUri ++ str "]" ++ whereExpression ++ str ")"

/-! ## Rule dispatcher -/

/-- isPoP: the definition carries a popMeasureDefinition. -/
def isPoP (m : Measure) : Bool :=
  (m.definition.bind (·.popMeasureDefinition)).isSome

/-- isContribution: definition.measureDefinition.computeRatio is
truthy. -/
def isContribution (m : Measure) : Bool :=
  ((m.definition.bind (·.measureDefinition)).bind (·.computeRatio)).getD false

/-- isCalculatedMeasure: no aggregation key at all. -/
def isCalculatedMeasure (m : Measure) : Bool :=
  ((m.definition.bind (·.measureDefinition)).bind (·.aggregation)).isNone

/-- getOriginalMeasureForPoP: the sibling measure whose localIdentifier
equals the PoP measureIdentifier (JS === also matches two undefined
values, hence Option equality). -/
def getOriginalMeasureForPoP (popMeasure : Measure) (mdObj : MdObj) : Option Measure :=
  (getMeasures (getBuckets mdObj)).find?
    (fun m => m.localIdentifier = (getPoPDefinition popMeasure).measureIdentifier)

/-- isPoPContribution: a PoP measure whose referenced base measure is a
contribution measure. A dangling reference makes the source destructure
undefined and fault; the fault is `none`. -/
def isPoPContribution (popMeasure : Measure) (mdObj : MdObj) : Option Bool :=
  if isPoP popMeasure then (getOriginalMeasureForPoP popMeasure mdObj).map isContribution
  else some false

/-- The five metric factories, named by the createXxxMetric function
each rule registers. -/
inductive Factory where
  | contributionPoP
  | pop
  | contribution
  | derived
  | pureMetric
deriving DecidableEq

/-- Lift a measure-only predicate into a rule predicate. -/
def liftPred (p : Measure → Bool) : Measure → MdObj → Option Bool :=
  fun m _ => some (p m)

/-- Modelled from the spec: the Rules class of src/utils/rules.js is not
under src (only this module imports it); per §4.3 a rule is a
predicate list with a factory, and evaluating a predicate list requires
every predicate to hold. A faulting predicate propagates the fault. -/
def evalPreds : List (Measure → MdObj → Option Bool) → Measure → MdObj → Option Bool
  | [], _, _ => some true
  | p :: ps, m, md =>
    match p m md with
    | none => none
    | some false => some false
    | some true => evalPreds ps m md

/-- Modelled from the spec: rules.match returns the factory of the first
rule, in registration order, for which all predicates hold; `some none`
when no rule matches. -/
def matchRules : List (List (Measure → MdObj → Option Bool) × Factory) →
    Measure → MdObj → Option (Option Factory)
  | [], _, _ => some none
  | (ps, f) :: rest, m, md =>
    match evalPreds ps m md with
    | none => none
    | some true => some (some f)
    | some false => matchRules rest m md

/-- The five rules in registration order (the second version of the
module). -/
def rulesList : List (List (Measure → MdObj → Option Bool) × Factory) :=
  [([isPoPContribution], .contributionPoP),
   ([liftPred isPoP], .pop),
   ([liftPred isContribution], .contribution),
   ([liftPred isDerived], .derived),
   ([liftPred isCalculatedMeasure], .pureMetric)]

/-- rules.match on the registered rule list. -/
def rulesMatch (m : Measure) (mdObj : MdObj) : Option (Option Factory) :=
  matchRules rulesList m mdObj

/-- getMetricFactory: the matched factory, or an invariant failure when
no rule matches (a plain measure object interpolates into the message as
[object Object]). The outer none is a faulting predicate. -/
def getMetricFactory (m : Measure) (mdObj : MdObj) : Option (Except JSStr Factory) :=
  (rulesMatch m mdObj).map (fun r =>
    match r with
    | some f => .ok f
    | none => .error (str "Unknown factory for: [object Object]"))

end V2

/-! ## Date filters of the metadata object (dateFilterToWhere) -/

/-- The dateFilter content: dataset reference (three legacy spellings),
granularity, type, and the from/to bounds. The source key of `type_` is
the word type. -/
structure DateFilter where
  dimension : Option JSStr := none
  dataSet : Option JSStr := none
  dataset : Option JSStr := none
  granularity : Option JSStr := none
  type_ : Option JSStr := none
  from_ : Option JSVal := none
  to_ : Option JSVal := none
deriving DecidableEq

/-- A metadata-object filter item carrying a dateFilter key. -/
structure FilterItem where
  dateFilter : Option DateFilter := none
deriving DecidableEq

/-- JS || on possibly-undefined strings: the empty string is falsy. -/
def jsOrStr (a b : Option JSStr) : Option JSStr :=
  match a with
  | some s => if s.isEmpty then b else some s
  | none => b

/-- The digit prefix of a string, if non-empty (what parseInt consumes
after the sign). -/
def digitsVal (s : JSStr) : Option Nat :=
  let ds := s.takeWhile (·.isDigit)
  if ds.isEmpty then none
  else some (ds.foldl (fun a c => 10 * a + (c.toNat - 48)) 0)

/-- JS parseInt(s, 10) on a string: optional sign, then a decimal digit
prefix; NaN when no digits follow. -/
def parseIntStr (s : JSStr) : JSVal :=
  let t := s.dropWhile (· = ' ')
  match t with
  | '-' :: rest => (digitsVal rest).elim .vnan (fun n => .vnum (-(n : Int)))
  | '+' :: rest => (digitsVal rest).elim .vnan (fun n => .vnum (n : Int))
  | _ => (digitsVal t).elim .vnan (fun n => .vnum (n : Int))

/-- toInteger: parseInt(value, 10). An integral number round-trips
through its decimal string, undefined and NaN parse to NaN. -/
def toInteger (v : Option JSVal) : JSVal :=
  match v with
  | none => .vnan
  | some .vnan => .vnan
  | some (.vnum n) => .vnum n
  | some (.vstr s) => parseIntStr s

/-- The where entry produced for one date filter:
key maps to the object with $between and $granularity. -/
structure DateWhere where
  key : JSStr
  betweenFrom : Option JSVal
  betweenTo : Option JSVal
  granularity : Option JSStr
deriving DecidableEq

/-- dateFilterToWhere: picks the dataset uri (dimension, dataSet, then
the deprecated lowercase dataset), coerces the bounds to integers for
relative filters, and emits the $between / $granularity entry. -/
def dateFilterToWhere (f : FilterItem) : DateWhere :=
  let dateUri := jsOrStr (f.dateFilter.bind (·.dimension))
    (jsOrStr (f.dateFilter.bind (·.dataSet)) (f.dateFilter.bind (·.dataset)))
  let granularity := f.dateFilter.bind (·.granularity)
  let isRelative := f.dateFilter.bind (·.type_) = some (str "relative")
  let filterFrom := f.dateFilter.bind (·.from_)
  let filterTo := f.dateFilter.bind (·.to_)
  let fromVal := if isRelative then some (toInteger filterFrom) else filterFrom
  let toVal := if isRelative then some (toInteger filterTo) else filterTo
  { key := showOpt dateUri, betweenFrom := fromVal, betweenTo := toVal,
    granularity := granularity }

/-! ## Header annotation (wrapMeasureIndexesFromMappings) -/

/-- A result header: id and uri may be absent, measureIndex and isPoP
are injected by the annotation pass; every other field is the opaque
payload. -/
structure Header (α : Type) where
  id : Option JSStr := none
  uri : Option JSStr := none
  measureIndex : Option Nat := none
  isPoP : Option Bool := none
  payload : α
deriving DecidableEq

/-- A metric mapping entry {element, measureIndex, isPoP} as produced
by the compiler (measureIndex is always a number there). -/
structure MetricMapping where
  element : JSStr
  measureIndex : Nat
  isPoP : Option Bool := none
deriving DecidableEq

/-- findHeaderForMappingFn: the mapping element equals the header id or
uri and the header has no measureIndex yet. -/
def findHeaderForMappingFn (mapping : MetricMapping) (header : Header α) : Bool :=
  (header.id = some mapping.element || header.uri = some mapping.element)
    && header.measureIndex = none

/-- The effect of one mapping: lodash find locates the first matching
header and the two fields are assigned on it. -/
def applyMapping (mapping : MetricMapping) : List (Header α) → List (Header α)
  | [] => []
  | h :: hs =>
    if findHeaderForMappingFn mapping h then
      { h with measureIndex := some mapping.measureIndex, isPoP := mapping.isPoP } :: hs
    else h :: applyMapping mapping hs

/-- wrapMeasureIndexesFromMappings: apply every mapping in order;
without mappings the headers pass through. -/
def wrapMeasureIndexesFromMappings (metricMappings : Option (List MetricMapping))
    (headers : List (Header α)) : List (Header α) :=
  match metricMappings with
  | none => headers
  | some ms => ms.foldl (fun hs mp => applyMapping mp hs) headers

/-- The fields of a header other than measureIndex and isPoP. -/
def headerFrame (h : Header α) : Option JSStr × Option JSStr × α :=
  (h.id, h.uri, h.payload)

/-! ## Result paging (execute-afm.js) -/

/-- The fixed per-dimension page size of the result pager. -/
def PAGE_SIZE : Nat := 500

/-- Modelled from the spec: src/execution/execute-afm.js is not under
src (only its tests are); §4.5 page-offset algorithm. Advancing treats
the offset vector as a mixed-radix counter bounded by total: the last
dimension is incremented by the page size; a dimension meeting or
exceeding its total resets to 0 and carries a page-size increment into
the previous dimension; overflow past the leftmost dimension means
there is no next page. -/
def nextPageOffset : List Nat → List Nat → Option (List Nat)
  | o :: os, t :: ts =>
    match nextPageOffset os ts with
    | some res => some (o :: res)
    | none =>
      if o + PAGE_SIZE < t then some ((o + PAGE_SIZE) :: os.map (fun _ => 0))
      else none
  | _, _ => none

/-- Modelled from the spec: 1-dimensional page merge per §4.5 and §8 is
pure concatenation in arrival order. -/
def mergePageData1 (prev page : List Int) : List Int := prev ++ page

/-- Modelled from the spec: grafting the rows of a 2-dimensional page
onto the accumulated rows starting at the given row offset,
concatenating along the last axis. -/
def graftRows : List (List Int) → Nat → List (List Int) → List (List Int)
  | rows, _, [] => rows
  | [], _, _ => []
  | row :: rows, 0, p :: ps => (row ++ p) :: graftRows rows 0 ps
  | row :: rows, r + 1, ps => row :: graftRows rows r ps

/-- Modelled from the spec: 2-dimensional page merge per §4.5: a page
whose last-dimension offset is non-zero concatenates each of its rows
onto the accumulated row at the matching index; otherwise its rows are
appended as new top-level entries. -/
def mergePageData2 (prev : List (List Int)) (off : Nat × Nat)
    (page : List (List Int)) : List (List Int) :=
  if off.2 ≠ 0 then graftRows prev off.1 page else prev ++ page

end GD

open GD

/-! ## Concrete inputs used by witnesses and counterexamples -/

/-- The relative year filter of the §8 scenario. -/
def relYearFilter : DateFilter :=
  { dataSet := some (str "ds"), granularity := some (str "GDC.time.year"),
    type_ := some (str "relative"), from_ := some (.vstr (str "-1")),
    to_ := some (.vstr (str "0")) }

/-- C7 counterexample input: a derived (sum-aggregated) measure of the
first module version. -/
def mSumV1 : V1.Measure :=
  V1.mkMeasure (some (str "t")) (some (str "f")) (some (str "/gdc/md/p/obj/7"))
    (some (str "sum")) none none

/-- C5 witness input: a sum measure on the object uri
/gdc/md/proj/obj/42. -/
def mShape : V1.Measure :=
  V1.mkMeasure (some (str "t")) (some (str "f"))
    (some (str "/gdc/md/proj/obj/42")) (some (str "sum")) none none

/-- C5 counterexample inputs: two measures identical but for the title
and format, whose hash-input strings coincide because the fields
contain the separator character. -/
def mHashA : V1.Measure :=
  V1.mkMeasure (some (str "a#b")) (some (str "c"))
    (some (str "/gdc/md/p/obj/1")) (some (str "sum")) none none

/-- The second C5 counterexample input. -/
def mHashB : V1.Measure :=
  V1.mkMeasure (some (str "a")) (some (str "b#c"))
    (some (str "/gdc/md/p/obj/1")) (some (str "sum")) none none

/-- C3 witness measure: a PoP measure referencing the sibling m1. -/
def mPopW : V2.Measure :=
  { localIdentifier := some (str "m1_pop"),
    definition := some ⟨none, some ⟨some (str "m1"), some ⟨some (str "popattr")⟩⟩⟩ }

/-- C3 witness base: the sibling m1, a contribution measure. -/
def mBaseW : V2.Measure :=
  { localIdentifier := some (str "m1"),
    definition := some ⟨some ⟨some ⟨some (str "/gdc/md/p/obj/2")⟩, none, none, some true⟩, none⟩ }

/-- C3 witness metadata object: one bucket with the base and PoP
measures. -/
def mdW : V2.MdObj :=
  { buckets := [⟨some (str "measures"),
      [⟨some mBaseW, none⟩, ⟨some mPopW, none⟩]⟩] }

/-- C10 witness headers: one annotated header and two matching
candidates of which only the first is updated. -/
def hW : Header Unit := { id := some (str "h1"), payload := () }

/-- C10 witness header already carrying a measure index. -/
def hDone : Header Unit :=
  { uri := some (str "h1"), measureIndex := some 7, payload := () }

/-- C10 witness mapping targeting element h1. -/
def mpW : MetricMapping := { element := str "h1", measureIndex := 4, isPoP := some true }

/-! ## Helper lemmas -/

lemma list_any_not_eq_not_all (l : List α) (p : α → Bool) :
    l.any (fun x => !p x) = !l.all p := by
  induction l with
  | nil => rfl
  | cons x xs ih => simp [List.any_cons, List.all_cons, ih, Bool.not_and]

lemma filteredMarker_eq_any (m : V1.Measure) :
    V1.filteredMarker m =
      if (V1.getMeasureFilters m).any (fun f => !V1.isEmptyFilter f)
      then str "_filtered" else [] := by
  unfold V1.filteredMarker
  rw [list_any_not_eq_not_all]
  cases hfs : V1.getMeasureFilters m with
  | nil => simp
  | cons f fs =>
    cases hall : (f :: fs).all V1.isEmptyFilter <;>
      simp [V1.allFiltersEmpty, hfs, hall]

/-! ## Claim theorems -/

/-- C4: for the empty suffix and the PoP suffix, getMetricTitle always
produces a title of length at most 1000; when title plus suffix exceeds
1000 characters the title is truncated to exactly 1000 with an ellipsis
inserted, a closing parenthesis preserved immediately after the
ellipsis if and only if the last title character is a closing
parenthesis; otherwise the title and suffix are concatenated
unchanged. -/
theorem metricTitle_bounded (suffix title : JSStr)
    (h : suffix = [] ∨ suffix = POP_SUFFIX) :
    (getMetricTitle suffix title).length ≤ 1000
    ∧ (title.length + suffix.length ≤ 1000 →
        getMetricTitle suffix title = title ++ suffix)
    ∧ (1000 < title.length + suffix.length →
        (getMetricTitle suffix title).length = 1000
        ∧ getMetricTitle suffix title =
            (if title.getLast? = some ')'
             then title.take (1000 - suffix.length - 2) ++ str "…)" ++ suffix
             else title.take (1000 - suffix.length - 1) ++ str "…" ++ suffix)) := by
  have hs : suffix.length = 0 ∨ suffix.length = 16 := by
    rcases h with h | h <;> subst h
    · left; rfl
    · right; rfl
  have e2 : (str "…)").length = 2 := by decide
  have e1 : (str "…").length = 1 := by decide
  have hdef : getMetricTitle suffix title =
      if title ≠ [] ∧ MAX_TITLE_LENGTH - suffix.length < title.length then
        (if title.getLast? = some ')' then
          title.take (MAX_TITLE_LENGTH - suffix.length - 2) ++ str "…)" ++ suffix
        else
          title.take (MAX_TITLE_LENGTH - suffix.length - 1) ++ str "…" ++ suffix)
      else title ++ suffix := rfl
  have hmt : MAX_TITLE_LENGTH = 1000 := rfl
  by_cases hcond : title ≠ [] ∧ MAX_TITLE_LENGTH - suffix.length < title.length
  · obtain ⟨hne, hlt⟩ := hcond
    rw [hmt] at hlt
    by_cases hlast : title.getLast? = some ')'
    · rw [hdef, if_pos ⟨hne, by rw [hmt]; exact hlt⟩, if_pos hlast]
      have hlen : (title.take (MAX_TITLE_LENGTH - suffix.length - 2)
          ++ str "…)" ++ suffix).length = 1000 := by
        simp only [List.length_append, List.length_take, e2, hmt]
        rcases hs with hs | hs <;> rw [hs] <;> omega
      refine ⟨le_of_eq hlen, fun hle => ?_, fun _ => ⟨hlen, ?_⟩⟩
      · exfalso; rcases hs with hs | hs <;> omega
      · rw [if_pos hlast, hmt]
    · rw [hdef, if_pos ⟨hne, by rw [hmt]; exact hlt⟩, if_neg hlast]
      have hlen : (title.take (MAX_TITLE_LENGTH - suffix.length - 1)
          ++ str "…" ++ suffix).length = 1000 := by
        simp only [List.length_append, List.length_take, e1, hmt]
        rcases hs with hs | hs <;> rw [hs] <;> omega
      refine ⟨le_of_eq hlen, fun hle => ?_, fun _ => ⟨hlen, ?_⟩⟩
      · exfalso; rcases hs with hs | hs <;> omega
      · rw [if_neg hlast, hmt]
  · rw [hdef, if_neg hcond]
    rw [not_and_or] at hcond
    have hsmall : title.length ≤ MAX_TITLE_LENGTH - suffix.length := by
      rcases hcond with hc | hc
      · have : title = [] := by simpa using hc
        subst this; simp
      · omega
    rw [hmt] at hsmall
    refine ⟨?_, fun _ => rfl, fun hgt => ?_⟩
    · simp only [List.length_append]
      rcases hs with hs | hs <;> omega
    · exfalso; rcases hs with hs | hs <;> omega

/-- C4 witness: a 1050-character title with the empty suffix truncates
to exactly 1000 characters. -/
theorem metricTitle_bounded_witness :
    (getMetricTitle [] (List.replicate 1050 'a')).length = 1000 :=
  ((metricTitle_bounded [] (List.replicate 1050 'a') (Or.inl rfl)).2.2
    (by simp only [List.length_replicate, List.length_nil]; omega)).1

/-- C8: for an executable date filter (both bounds defined) the where
entry keys the dataset uri to the pair of bounds and the granularity;
the bounds are coerced through base-10 parseInt exactly when the filter
type is relative, and passed through unchanged otherwise. -/
theorem dateFilterWhere_entry (d : DateFilter) (v w : JSVal)
    (hf : d.from_ = some v) (ht : d.to_ = some w) :
    dateFilterToWhere ⟨some d⟩ =
      { key := showOpt (jsOrStr d.dimension (jsOrStr d.dataSet d.dataset)),
        betweenFrom := some (if d.type_ = some (str "relative")
                             then toInteger (some v) else v),
        betweenTo := some (if d.type_ = some (str "relative")
                           then toInteger (some w) else w),
        granularity := d.granularity } := by
  by_cases hrel : d.type_ = some (str "relative") <;>
    simp [dateFilterToWhere, hf, ht, hrel]

/-- C8 witness: the relative year filter with string bounds -1 and 0
compiles to the $between pair of integers -1 and 0 with the year
granularity. -/
theorem dateFilterWhere_entry_witness :
    dateFilterToWhere ⟨some relYearFilter⟩
      = ⟨str "ds", some (.vnum (-1)), some (.vnum 0),
         some (str "GDC.time.year")⟩ := by
  rw [dateFilterWhere_entry relYearFilter (.vstr (str "-1")) (.vstr (str "0")) rfl rfl]
  decide

/-- C9: a measure matching none of the five dispatch rules makes
getMetricFactory fail with the invariant error (the message carries the
stringified measure) and never yields a factory. -/
theorem metricFactory_invariant (m : V2.Measure) (md : V2.MdObj)
    (h : V2.rulesMatch m md = some none) :
    V2.getMetricFactory m md
        = some (.error (str "Unknown factory for: [object Object]"))
    ∧ ∀ f, V2.getMetricFactory m md ≠ some (.ok f) := by
  constructor
  · simp [V2.getMetricFactory, h]
  · intro f hc
    rw [V2.getMetricFactory, h] at hc
    simp at hc

/-- C9 witness: a measure whose aggregation key is present but empty
(hence neither calculated nor derived, not PoP, not a contribution)
matches no rule and fails with the invariant error. -/
theorem metricFactory_invariant_witness :
    V2.getMetricFactory
        { definition := some ⟨some ⟨none, some [], none, none⟩, none⟩ } {}
      = some (.error (str "Unknown factory for: [object Object]")) :=
  (metricFactory_invariant
    { definition := some ⟨some ⟨none, some [], none, none⟩, none⟩ } {}
    (by decide)).1

lemma getDefinition_setEmptyFilters (m : V2.Measure) :
    V2.getDefinition (V2.setEmptyFilters m)
      = { V2.getDefinition m with filters := some [] } := by
  cases hd : m.definition with
  | none => simp [V2.setEmptyFilters, V2.getDefinition, hd]
  | some d =>
    cases hmd : d.measureDefinition with
    | none => simp [V2.setEmptyFilters, V2.getDefinition, hd, hmd]
    | some md => simp [V2.setEmptyFilters, V2.getDefinition, hd, hmd]

lemma aggregation_setEmptyFilters (m : V2.Measure) :
    V2.getAggregation (V2.setEmptyFilters m) = V2.getAggregation m := by
  unfold V2.getAggregation
  rw [getDefinition_setEmptyFilters]

lemma itemUri_setEmptyFilters (m : V2.Measure) :
    V2.itemUri (V2.setEmptyFilters m) = V2.itemUri m := by
  unfold V2.itemUri
  rw [getDefinition_setEmptyFilters]

lemma filters_setEmptyFilters (m : V2.Measure) :
    V2.getMeasureFilters (V2.setEmptyFilters m) = [] := by
  unfold V2.getMeasureFilters
  rw [getDefinition_setEmptyFilters]
  rfl

/-- C7 (amended): for every contribution measure the second-version
percent expression is SELECT (base where) / (base BY ALL attribute
where): the WHERE clause built from the truthy filter expressions is
appended identically to numerator and denominator, and the base is the
filters-removed aggregated generated expression when the measure is
derived, else the bare SELECT of the object uri. -/
theorem percentExpression_shape (category : Option V2.VisualizationAttribute)
    (am : V2.AttrMap) (m : V2.Measure) :
    V2.getPercentMetricExpression category am m =
      (let base :=
        if V2.isDerived m then
          str "SELECT "
            ++ (if (upperJS (V2.getAggregation m)).isEmpty
                then str "[" ++ showOpt (V2.itemUri m) ++ str "]"
                else upperJS (V2.getAggregation m) ++ str "(["
                  ++ showOpt (V2.itemUri m) ++ str "])")
        else str "SELECT [" ++ showOpt (V2.itemUri m) ++ str "]"
      let wh := V2.whereParts am (V2.getMeasureFilters m)
      let w := if wh.isEmpty then [] else str " WHERE " ++ joinSep (str " AND ") wh
      str "SELECT (" ++ base ++ w ++ str ") / (" ++ base ++ str " BY ALL ["
        ++ showOpt (V2.getAttrUriFromMap
              (category.bind (fun c => c.displayForm.bind (·.uri))) am)
        ++ str "]" ++ w ++ str ")") := by
  unfold V2.getPercentMetricExpression
  by_cases hd : V2.isDerived m
  · simp only [hd, if_true, if_pos]
    unfold V2.getGeneratedMetricExpression
    rw [aggregation_setEmptyFilters, itemUri_setEmptyFilters, filters_setEmptyFilters]
    simp [V2.whereParts]
  · simp only [hd, if_false, if_neg]
    simp

/-- C7 counterexample: in the first module version (also cited by the
claim) the derived base degenerates to SELECT of undefined, because the
omit call drops the whole definition; the claimed expression with the
aggregated base differs. -/
theorem percentExpression_v1_undefined_base :
    V1.isDerived mSumV1 = true
    ∧ V1.getGeneratedMetricExpression mSumV1 = str "SELECT SUM([/gdc/md/p/obj/7])"
    ∧ V1.getPercentMetricExpression (some ⟨some (str "attrDF")⟩) mSumV1
        = str "SELECT (SELECT [undefined]) / (SELECT [undefined] BY ALL [attrDF])"
    ∧ V1.getPercentMetricExpression (some ⟨some (str "attrDF")⟩) mSumV1
        ≠ str "SELECT (SELECT SUM([/gdc/md/p/obj/7])) / (SELECT SUM([/gdc/md/p/obj/7]) BY ALL [attrDF])" := by
  refine ⟨rfl, by decide, by decide, by decide⟩

lemma splitCh_cons_sep (sep : Char) (t : List Char) :
    splitCh sep (sep :: t) = [] :: splitCh sep t := by
  simp [splitCh]

lemma splitCh_not_mem {sep : Char} {xs : List Char} (h : sep ∉ xs) :
    splitCh sep xs = [xs] := by
  induction xs with
  | nil => rfl
  | cons c cs ih =>
    have hc : ¬(c = sep) := fun e => h (e ▸ List.mem_cons_self c cs)
    have hcs : sep ∉ cs := fun hm => h (List.mem_cons_of_mem _ hm)
    simp [splitCh, hc, ih hcs]

lemma splitCh_append_sep {sep : Char} {xs : List Char} (h : sep ∉ xs)
    (ys : List Char) :
    splitCh sep (xs ++ sep :: ys) = xs :: splitCh sep ys := by
  induction xs with
  | nil => simp [splitCh]
  | cons c cs ih =>
    have hc : ¬(c = sep) := fun e => h (e ▸ List.mem_cons_self c cs)
    have hcs : sep ∉ cs := fun hm => h (List.mem_cons_of_mem _ hm)
    simp [splitCh, hc, ih hcs]

lemma splitURI (p o : JSStr) (hp : '/' ∉ p) (ho : '/' ∉ o) :
    splitCh '/' (str "/gdc/md/" ++ p ++ str "/obj/" ++ o)
      = [[], str "gdc", str "md", p, str "obj", o] := by
  have h1 : str "/gdc/md/" ++ p ++ str "/obj/" ++ o
      = '/' :: (str "gdc" ++ '/' :: (str "md" ++ '/' ::
          (p ++ '/' :: (str "obj" ++ '/' :: o)))) := by
    simp only [List.append_assoc]
    rfl
  rw [h1, splitCh_cons_sep, splitCh_append_sep (by decide),
    splitCh_append_sep (by decide), splitCh_append_sep hp,
    splitCh_append_sep (by decide), splitCh_not_mem ho]

lemma genId_shape_aux (m : V1.Measure) (aggTag title format p o : JSStr)
    (creator : V1.Measure → JSStr)
    (hitem : (V1.getDefinition m).item
      = some (str "/gdc/md/" ++ p ++ str "/obj/" ++ o))
    (hp : '/' ∉ p) (ho : '/' ∉ o) :
    V1.getGeneratedMetricIdentifier m aggTag creator (getGeneratedMetricHash title format)
      = (if V1.getAggregation m = [] then str "metric"
         else if V1.getAggregation m = str "count" then str "attribute"
         else str "fact")
        ++ str "_" ++ p ++ str "_" ++ o ++ str ".generated."
        ++ md5 (creator m ++ str "#" ++ title ++ str "#" ++ format)
        ++ (if (V1.getMeasureFilters m).any (fun f => !V1.isEmptyFilter f)
            then str "_filtered" else [])
        ++ str "_" ++ aggTag := by
  unfold V1.getGeneratedMetricIdentifier
  rw [filteredMarker_eq_any]
  unfold V1.getMeasureType getGeneratedMetricHash
  rw [hitem]
  simp only [Option.getD_some]
  rw [splitURI p o hp ho]
  simp [jsIdx, showOpt, List.append_assoc]

/-- C5 (amended): the generated identifier has the shape typePrefix,
projectId and objectLocalId parsed positionally out of the object uri,
the .generated. tag, the md5 content hash of expression#title#format,
the filtered marker exactly when some non-vacuous filter exists, and
the aggregation tag; the typePrefix is metric with no aggregation,
attribute for count, fact otherwise. A change of expression, title or
format changes the identifier only through the combined hash-input
string. -/
theorem generatedIdentifier_shape (m : V1.Measure) (aggTag title format p o : JSStr)
    (creator : V1.Measure → JSStr)
    (hitem : (V1.getDefinition m).item
      = some (str "/gdc/md/" ++ p ++ str "/obj/" ++ o))
    (hp : '/' ∉ p) (ho : '/' ∉ o) :
    V1.getGeneratedMetricIdentifier m aggTag creator (getGeneratedMetricHash title format)
      = (if V1.getAggregation m = [] then str "metric"
         else if V1.getAggregation m = str "count" then str "attribute"
         else str "fact")
        ++ str "_" ++ p ++ str "_" ++ o ++ str ".generated."
        ++ md5 (creator m ++ str "#" ++ title ++ str "#" ++ format)
        ++ (if (V1.getMeasureFilters m).any (fun f => !V1.isEmptyFilter f)
            then str "_filtered" else [])
        ++ str "_" ++ aggTag :=
  genId_shape_aux m aggTag title format p o creator hitem hp ho

/-- C5 witness: the identifier of the concrete sum measure is the fact
prefix, the positional uri parts proj and 42, the md5 content hash, no
filtered marker, and the sum tag. -/
theorem generatedIdentifier_shape_witness :
    V1.getGeneratedMetricIdentifier mShape (str "sum")
        V1.getGeneratedMetricExpression (getGeneratedMetricHash (str "t") (str "f"))
      = str "fact" ++ str "_" ++ str "proj" ++ str "_" ++ str "42"
        ++ str ".generated."
        ++ md5 (V1.getGeneratedMetricExpression mShape
            ++ str "#" ++ str "t" ++ str "#" ++ str "f")
        ++ [] ++ str "_" ++ str "sum" :=
  generatedIdentifier_shape mShape (str "sum") (str "t") (str "f")
    (str "proj") (str "42") V1.getGeneratedMetricExpression
    (by decide) (by decide) (by decide)

/-- C5 counterexample: changing the title (and format) does not change
the generated identifier, because both yield the hash input
expression#a#b#c. -/
theorem generatedIdentifier_hash_collision :
    V1.createDerivedMetricElement mHashA = V1.createDerivedMetricElement mHashB
    ∧ mHashA.title ≠ mHashB.title ∧ mHashA.format ≠ mHashB.format := by
  refine ⟨?_, by decide, by decide⟩
  have hA := genId_shape_aux mHashA (V1.getAggregation mHashA)
    (getBaseMetricTitle (showOpt mHashA.title)) (showOpt mHashA.format)
    (str "p") (str "1") V1.getGeneratedMetricExpression
    (by decide) (by decide) (by decide)
  have hB := genId_shape_aux mHashB (V1.getAggregation mHashB)
    (getBaseMetricTitle (showOpt mHashB.title)) (showOpt mHashB.format)
    (str "p") (str "1") V1.getGeneratedMetricExpression
    (by decide) (by decide) (by decide)
  have hin : V1.getGeneratedMetricExpression mHashA ++ str "#"
        ++ getBaseMetricTitle (showOpt mHashA.title) ++ str "#" ++ showOpt mHashA.format
      = V1.getGeneratedMetricExpression mHashB ++ str "#"
        ++ getBaseMetricTitle (showOpt mHashB.title) ++ str "#" ++ showOpt mHashB.format := by
    decide
  unfold V1.createDerivedMetricElement
  rw [hA, hB, hin]
  have ha : V1.getAggregation mHashA = str "sum" := by decide
  have hb : V1.getAggregation mHashB = str "sum" := by decide
  have hfa : V1.getMeasureFilters mHashA = [] := by decide
  have hfb : V1.getMeasureFilters mHashB = [] := by decide
  rw [ha, hb, hfa, hfb]

lemma vacuous_wherePart (f : V1.MetricFilter) (h : V1.isEmptyFilter f = true) :
    V1.getFilterExpression f = none ∨ V1.getFilterExpression f = some [] := by
  cases f with
  | positiveAttributeFilter df in_ =>
    left
    have he : in_.getD [] = [] := by
      cases in_ with
      | none => rfl
      | some l =>
        simp [V1.isEmptyFilter, jsIsEmptyOpt] at h
        simp [h]
    simp [V1.getFilterExpression, V1.getAttrFilterExpression, he]
  | negativeAttributeFilter df notIn =>
    left
    have he : notIn.getD [] = [] := by
      cases notIn with
      | none => rfl
      | some l =>
        simp [V1.isEmptyFilter, jsIsEmptyOpt] at h
        simp [h]
    simp [V1.getFilterExpression, V1.getAttrFilterExpression, he]
  | absoluteDateFilter a b => right; rfl
  | relativeDateFilter a b => right; rfl

lemma whereParts_cons (f : V1.MetricFilter) (fs : List V1.MetricFilter) :
    V1.whereParts (f :: fs) =
      (match V1.getFilterExpression f with
       | none => V1.whereParts fs
       | some s => if s.isEmpty then V1.whereParts fs else s :: V1.whereParts fs) := by
  unfold V1.whereParts
  rw [List.filterMap_cons]
  cases V1.getFilterExpression f with
  | none => rfl
  | some s => by_cases hs : s.isEmpty <;> simp [hs]

lemma whereParts_vacuous (fs : List V1.MetricFilter)
    (h : ∀ f ∈ fs, V1.isEmptyFilter f = true) : V1.whereParts fs = [] := by
  induction fs with
  | nil => rfl
  | cons f fs ih =>
    have hf := h f (List.mem_cons_self f fs)
    have ht := ih (fun g hg => h g (List.mem_cons_of_mem f hg))
    rcases vacuous_wherePart f hf with h1 | h1 <;>
      rw [whereParts_cons, h1] <;> simpa using ht

/-- C6: compiling a measure with an empty filter list yields the same
generated identifier as compiling it with no filter list at all; a
measure whose filters are all vacuous gets the identifier of the
filter-free measure (no filtered marker, unchanged hash); and the
filtered marker appears exactly when at least one filter is
non-vacuous. -/
theorem vacuousFilters_identifier :
    (∀ (title format item agg : Option JSStr) (ratio : Option Bool),
      V1.createDerivedMetricElement (V1.mkMeasure title format item agg ratio none)
        = V1.createDerivedMetricElement (V1.mkMeasure title format item agg ratio (some [])))
    ∧ (∀ (title format item agg : Option JSStr) (ratio : Option Bool)
        (fs : List V1.MetricFilter), (∀ f ∈ fs, V1.isEmptyFilter f = true) →
      V1.createDerivedMetricElement (V1.mkMeasure title format item agg ratio (some fs))
        = V1.createDerivedMetricElement (V1.mkMeasure title format item agg ratio none))
    ∧ (∀ m : V1.Measure,
      V1.filteredMarker m
        = (if (V1.getMeasureFilters m).any (fun f => !V1.isEmptyFilter f)
           then str "_filtered" else [])) := by
  refine ⟨fun title format item agg ratio => rfl, ?_, filteredMarker_eq_any⟩
  intro title format item agg ratio fs h
  have hw : V1.whereParts fs = [] := whereParts_vacuous fs h
  have hall : fs.all V1.isEmptyFilter = true :=
    List.all_eq_true.mpr (fun f hf => h f hf)
  have efil : V1.getMeasureFilters (V1.mkMeasure title format item agg ratio (some fs))
      = fs := rfl
  have e1 : V1.getGeneratedMetricExpression (V1.mkMeasure title format item agg ratio (some fs))
      = V1.getGeneratedMetricExpression (V1.mkMeasure title format item agg ratio none) := by
    unfold V1.getGeneratedMetricExpression
    rw [efil, hw]
    rfl
  have e2 : V1.filteredMarker (V1.mkMeasure title format item agg ratio (some fs)) = [] := by
    unfold V1.filteredMarker
    simp [V1.allFiltersEmpty, efil, hall]
  have e3 : V1.filteredMarker (V1.mkMeasure title format item agg ratio none) = [] := rfl
  unfold V1.createDerivedMetricElement V1.getGeneratedMetricIdentifier
  rw [e1, e2, e3]
  rfl

/-- C6 witness: a vacuous positive attribute filter (empty element
list) leaves the generated identifier of a sum measure unchanged. -/
theorem vacuousFilters_identifier_witness :
    V1.createDerivedMetricElement
        (V1.mkMeasure (some (str "t")) (some (str "f"))
          (some (str "/gdc/md/p/obj/1")) (some (str "sum")) none
          (some [.positiveAttributeFilter (some (str "df")) (some [])]))
      = V1.createDerivedMetricElement
        (V1.mkMeasure (some (str "t")) (some (str "f"))
          (some (str "/gdc/md/p/obj/1")) (some (str "sum")) none none) :=
  vacuousFilters_identifier.2.1 (some (str "t")) (some (str "f"))
    (some (str "/gdc/md/p/obj/1")) (some (str "sum")) none
    [.positiveAttributeFilter (some (str "df")) (some [])]
    (by decide)

/-- C3: provided a PoP reference resolves (the §3 invariant), rules
matching selects the factory by the registration-order precedence: a
PoP measure whose referenced base measure is a contribution measure
gets the contribution+PoP factory, then PoP, contribution, derived and
calculated in that order; no matching rule yields no factory. -/
theorem metricFactory_precedence (m : V2.Measure) (md : V2.MdObj)
    (h : V2.isPoP m = true → (V2.getOriginalMeasureForPoP m md).isSome) :
    V2.rulesMatch m md = some (
      if V2.isPoP m
          && ((V2.getOriginalMeasureForPoP m md).map V2.isContribution).getD false
        then some .contributionPoP
      else if V2.isPoP m then some .pop
      else if V2.isContribution m then some .contribution
      else if V2.isDerived m then some .derived
      else if V2.isCalculatedMeasure m then some .pureMetric
      else none) := by
  by_cases hp : V2.isPoP m
  · obtain ⟨base, hbase⟩ := Option.isSome_iff_exists.mp (h hp)
    by_cases hc : V2.isContribution base <;>
      simp [V2.rulesMatch, V2.rulesList, V2.matchRules, V2.evalPreds,
        V2.isPoPContribution, V2.liftPred, hp, hbase, hc]
  · by_cases hc : V2.isContribution m
    · simp [V2.rulesMatch, V2.rulesList, V2.matchRules, V2.evalPreds,
        V2.isPoPContribution, V2.liftPred, hp, hc]
    · by_cases hd : V2.isDerived m
      · simp [V2.rulesMatch, V2.rulesList, V2.matchRules, V2.evalPreds,
          V2.isPoPContribution, V2.liftPred, hp, hc, hd]
      · by_cases hcal : V2.isCalculatedMeasure m <;>
          simp [V2.rulesMatch, V2.rulesList, V2.matchRules, V2.evalPreds,
            V2.isPoPContribution, V2.liftPred, hp, hc, hd, hcal]

/-- C3 witness: the PoP measure whose base is a contribution measure
matches the first rule and selects the contribution+PoP factory. -/
theorem metricFactory_precedence_witness :
    V2.rulesMatch mPopW mdW = some (some .contributionPoP) := by
  have h := metricFactory_precedence mPopW mdW (by decide)
  rw [h]
  decide

lemma applyMapping_length (mp : MetricMapping) (hs : List (Header α)) :
    (applyMapping mp hs).length = hs.length := by
  induction hs with
  | nil => rfl
  | cons h t ih =>
    unfold applyMapping
    split <;> simp [ih]

lemma applyMapping_frame (mp : MetricMapping) (hs : List (Header α)) (i : Nat) :
    ((applyMapping mp hs).get? i).map headerFrame = (hs.get? i).map headerFrame := by
  induction hs generalizing i with
  | nil => rfl
  | cons h t ih =>
    unfold applyMapping
    split
    · cases i <;> rfl
    · cases i with
      | zero => rfl
      | succ j => simpa using ih j

lemma applyMapping_preserve (mp : MetricMapping) (hs : List (Header α))
    (i : Nat) (h : Header α) (k : Nat)
    (hget : hs.get? i = some h) (hmi : h.measureIndex = some k) :
    (applyMapping mp hs).get? i = some h := by
  induction hs generalizing i with
  | nil => simp at hget
  | cons x t ih =>
    unfold applyMapping
    split
    · rename_i hm
      cases i with
      | zero =>
        simp at hget
        subst hget
        rw [findHeaderForMappingFn, hmi] at hm
        simp at hm
      | succ j => simpa using hget
    · cases i with
      | zero => simpa using hget
      | succ j =>
        exact ih j hget

lemma applyMapping_nomatch (mp : MetricMapping) (hs : List (Header α))
    (h : ∀ x ∈ hs, findHeaderForMappingFn mp x = false) :
    applyMapping mp hs = hs := by
  induction hs with
  | nil => rfl
  | cons x t ih =>
    unfold applyMapping
    rw [if_neg]
    · rw [ih (fun y hy => h y (List.mem_cons_of_mem x hy))]
    · simp [h x (List.mem_cons_self x t)]

lemma applyMapping_first (mp : MetricMapping) (hs : List (Header α))
    (i : Nat) (h : Header α)
    (hget : hs.get? i = some h) (hmatch : findHeaderForMappingFn mp h = true)
    (hbefore : ∀ j g, j < i → hs.get? j = some g → findHeaderForMappingFn mp g = false) :
    applyMapping mp hs
      = hs.set i { h with measureIndex := some mp.measureIndex, isPoP := mp.isPoP } := by
  induction hs generalizing i with
  | nil => simp at hget
  | cons x t ih =>
    cases i with
    | zero =>
      simp at hget
      subst hget
      unfold applyMapping
      rw [if_pos hmatch]
      rfl
    | succ j =>
      have hx : findHeaderForMappingFn mp x = false :=
        hbefore 0 x (Nat.succ_pos j) rfl
      unfold applyMapping
      rw [if_neg (by simp [hx])]
      simp only [List.set]
      rw [ih j (by simpa using hget)
        (fun j' g hj' hg => hbefore (j' + 1) g (by omega) (by simpa using hg))]

lemma wrap_length (ms : List MetricMapping) (hs : List (Header α)) :
    (wrapMeasureIndexesFromMappings (some ms) hs).length = hs.length := by
  induction ms generalizing hs with
  | nil => rfl
  | cons mp t ih =>
    have : wrapMeasureIndexesFromMappings (some (mp :: t)) hs
        = wrapMeasureIndexesFromMappings (some t) (applyMapping mp hs) := rfl
    rw [this, ih, applyMapping_length]

lemma wrap_frame (ms : List MetricMapping) (hs : List (Header α)) (i : Nat) :
    ((wrapMeasureIndexesFromMappings (some ms) hs).get? i).map headerFrame
      = (hs.get? i).map headerFrame := by
  induction ms generalizing hs with
  | nil => rfl
  | cons mp t ih =>
    have : wrapMeasureIndexesFromMappings (some (mp :: t)) hs
        = wrapMeasureIndexesFromMappings (some t) (applyMapping mp hs) := rfl
    rw [this, ih, applyMapping_frame]

lemma wrap_preserve (ms : List MetricMapping) (hs : List (Header α))
    (i : Nat) (h : Header α) (k : Nat)
    (hget : hs.get? i = some h) (hmi : h.measureIndex = some k) :
    (wrapMeasureIndexesFromMappings (some ms) hs).get? i = some h := by
  induction ms generalizing hs with
  | nil => exact hget
  | cons mp t ih =>
    have : wrapMeasureIndexesFromMappings (some (mp :: t)) hs
        = wrapMeasureIndexesFromMappings (some t) (applyMapping mp hs) := rfl
    rw [this]
    exact ih (applyMapping mp hs) (applyMapping_preserve mp hs i h k hget hmi)

/-- C10: wrapMeasureIndexesFromMappings keeps the length and order of
the headers and every field other than measureIndex and isPoP; a header
already carrying a measureIndex is never touched; each mapping updates
exactly the first header matching its element among those without a
measureIndex, setting measureIndex and isPoP; a mapping matching no
header leaves the headers unmodified; absent mappings pass the headers
through. -/
theorem wrapMeasureIndexes_frame :
    (∀ (ms : List MetricMapping) (hs : List (Header α)),
      (wrapMeasureIndexesFromMappings (some ms) hs).length = hs.length)
    ∧ (∀ (ms : List MetricMapping) (hs : List (Header α)) (i : Nat),
      ((wrapMeasureIndexesFromMappings (some ms) hs).get? i).map headerFrame
        = (hs.get? i).map headerFrame)
    ∧ (∀ (ms : List MetricMapping) (hs : List (Header α)) (i : Nat)
        (h : Header α) (k : Nat), hs.get? i = some h → h.measureIndex = some k →
      (wrapMeasureIndexesFromMappings (some ms) hs).get? i = some h)
    ∧ (∀ (ms : List MetricMapping) (hs : List (Header α)),
      wrapMeasureIndexesFromMappings (some ms) hs
        = ms.foldl (fun acc mp => applyMapping mp acc) hs)
    ∧ (∀ (mp : MetricMapping) (hs : List (Header α)),
      (∀ x ∈ hs, findHeaderForMappingFn mp x = false) → applyMapping mp hs = hs)
    ∧ (∀ (mp : MetricMapping) (hs : List (Header α)) (i : Nat) (h : Header α),
      hs.get? i = some h → findHeaderForMappingFn mp h = true →
      (∀ j g, j < i → hs.get? j = some g → findHeaderForMappingFn mp g = false) →
      applyMapping mp hs
        = hs.set i { h with measureIndex := some mp.measureIndex, isPoP := mp.isPoP })
    ∧ (∀ hs : List (Header α), wrapMeasureIndexesFromMappings none hs = hs) :=
  ⟨wrap_length, wrap_frame, wrap_preserve, fun _ _ => rfl,
   applyMapping_nomatch, applyMapping_first, fun _ => rfl⟩

/-- C10 witness: the mapping annotates only the first matching header
without a measureIndex; the already-annotated header keeps its index
and the second candidate stays untouched. -/
theorem wrapMeasureIndexes_frame_witness :
    applyMapping mpW [hDone, hW, hW]
      = [hDone, { hW with measureIndex := some 4, isPoP := some true }, hW]
    ∧ (wrapMeasureIndexesFromMappings (some [mpW]) [hDone, hW, hW]).get? 0
        = some hDone := by
  constructor
  · have h := (wrapMeasureIndexes_frame (α := Unit)).2.2.2.2.2.1 mpW [hDone, hW, hW]
      1 hW rfl (by decide)
      (fun j g hj hg => by
        interval_cases j
        · simp at hg
          subst hg
          decide)
    rw [h]
    rfl
  · exact (wrapMeasureIndexes_frame (α := Unit)).2.2.1 [mpW] [hDone, hW, hW] 0 hDone 7
      rfl rfl

lemma map_const_zero (l : List Nat) :
    l.map (fun _ => 0) = List.replicate l.length 0 := by
  induction l with
  | nil => rfl
  | cons x t ih => simp [ih, List.replicate_succ]

lemma nextPageOffset_none_iff (os : List Nat) : ∀ (ts : List Nat),
    os.length = ts.length →
    (nextPageOffset os ts = none ↔
      ∀ i, i < os.length → ts.getD i 0 ≤ os.getD i 0 + PAGE_SIZE) := by
  induction os with
  | nil =>
    intro ts h
    have : ts = [] := List.eq_nil_of_length_eq_zero h.symm
    subst this
    simp [nextPageOffset]
  | cons o os ih =>
    intro ts h
    cases ts with
    | nil => simp at h
    | cons t ts' =>
      have h' : os.length = ts'.length := by simpa using h
      have iht := ih ts' h'
      constructor
      · intro hn i hi
        cases hm : nextPageOffset os ts' with
        | some res => rw [nextPageOffset, hm] at hn; simp at hn
        | none =>
          rw [nextPageOffset, hm] at hn
          by_cases hlt : o + PAGE_SIZE < t
          · rw [if_pos hlt] at hn; simp at hn
          · cases i with
            | zero => simp only [List.getD_cons_zero]; omega
            | succ j =>
              have := (iht.mp hm) j (by simpa using hi)
              simpa [List.getD_cons_succ] using this
      · intro hall
        have hm : nextPageOffset os ts' = none := iht.mpr (fun j hj => by
          have := hall (j + 1) (by simpa using Nat.succ_lt_succ hj)
          simpa [List.getD_cons_succ] using this)
        have h0 := hall 0 (Nat.succ_pos _)
        simp only [List.getD_cons_zero] at h0
        rw [nextPageOffset, hm, if_neg (by omega)]

lemma nextPageOffset_some (os : List Nat) : ∀ (ts res : List Nat),
    os.length = ts.length → nextPageOffset os ts = some res →
    ∃ k, k < os.length ∧ os.getD k 0 + PAGE_SIZE < ts.getD k 0
      ∧ (∀ j, k < j → j < os.length → ts.getD j 0 ≤ os.getD j 0 + PAGE_SIZE)
      ∧ res = os.take k
          ++ (os.getD k 0 + PAGE_SIZE) :: List.replicate (os.length - k - 1) 0 := by
  induction os with
  | nil =>
    intro ts res h hr
    have : ts = [] := List.eq_nil_of_length_eq_zero h.symm
    subst this
    simp [nextPageOffset] at hr
  | cons o os ih =>
    intro ts res h hr
    cases ts with
    | nil => simp at h
    | cons t ts' =>
      have h' : os.length = ts'.length := by simpa using h
      cases hm : nextPageOffset os ts' with
      | some res' =>
        rw [nextPageOffset, hm] at hr
        obtain ⟨k, hk, hlt, hafter, hres⟩ := ih ts' res' h' hm
        refine ⟨k + 1, by simpa using Nat.succ_lt_succ hk, by simpa using hlt,
          ?_, ?_⟩
        · intro j hj1 hj2
          cases j with
          | zero => omega
          | succ j' =>
            simp only [List.getD_cons_succ]
            exact hafter j' (by omega) (by simpa using hj2)
        · have hres2 : res = o :: res' := by simpa using hr.symm
          rw [hres2, hres]
          simp [List.take_succ_cons]
      | none =>
        rw [nextPageOffset, hm] at hr
        by_cases hlt : o + PAGE_SIZE < t
        · rw [if_pos hlt] at hr
          refine ⟨0, Nat.succ_pos _, by simpa using hlt, ?_, ?_⟩
          · intro j hj1 hj2
            cases j with
            | zero => omega
            | succ j' =>
              simp only [List.getD_cons_succ]
              exact ((nextPageOffset_none_iff os ts' h').mp hm) j' (by simpa using hj2)
          · have hres2 : res = (o + PAGE_SIZE) :: os.map (fun _ => 0) := by
              simpa using hr.symm
            rw [hres2, map_const_zero]
            simp
        · rw [if_neg hlt] at hr
          simp at hr

/-- C1: nextPageOffset returns no next page exactly when every
dimension has reached its total (offset plus the page size 500 meets or
exceeds the total); otherwise the result equals the input with one
page-size increment at the rightmost dimension still below its total
after increment, every dimension to its right (which would overflow)
reset to 0, and every dimension to its left unchanged. -/
theorem nextPageOffset_pages (os ts : List Nat) (h : os.length = ts.length) :
    (nextPageOffset os ts = none ↔
      ∀ i, i < os.length → ts.getD i 0 ≤ os.getD i 0 + PAGE_SIZE)
    ∧ (∀ res, nextPageOffset os ts = some res →
        ∃ k, k < os.length ∧ os.getD k 0 + PAGE_SIZE < ts.getD k 0
          ∧ (∀ j, k < j → j < os.length → ts.getD j 0 ≤ os.getD j 0 + PAGE_SIZE)
          ∧ res = os.take k
              ++ (os.getD k 0 + PAGE_SIZE) :: List.replicate (os.length - k - 1) 0) :=
  ⟨nextPageOffset_none_iff os ts h,
   fun res hr => nextPageOffset_some os ts res h hr⟩

/-- C1 witness: the rank-2 examples of the test suite: offset 500,0
with totals 501,501 advances to 500,500; offset 500,500 is the last
page; and the last-page condition instantiates the characterization. -/
theorem nextPageOffset_pages_witness :
    nextPageOffset [500, 0] [501, 501] = some [500, 500]
    ∧ nextPageOffset [500, 500] [501, 501] = none
    ∧ (nextPageOffset [500, 500] [501, 501] = none ↔
        ∀ i, i < [500, 500].length →
          [501, 501].getD i 0 ≤ [500, 500].getD i 0 + PAGE_SIZE) :=
  ⟨by decide, by decide, (nextPageOffset_pages [500, 500] [501, 501] rfl).1⟩

lemma graftRows_zipWith (prev : List (List Int)) : ∀ (page : List (List Int)),
    prev.length = page.length →
    graftRows prev 0 page = List.zipWith (· ++ ·) prev page := by
  induction prev with
  | nil =>
    intro page h
    have : page = [] := List.eq_nil_of_length_eq_zero h.symm
    subst this
    rfl
  | cons row rows ih =>
    intro page h
    cases page with
    | nil => simp at h
    | cons p ps =>
      have h' : rows.length = ps.length := by simpa using h
      simp only [graftRows, List.zipWith_cons_cons]
      rw [ih ps h']

lemma graftRows_append (xs : List (List Int)) (ys page : List (List Int)) :
    graftRows (xs ++ ys) xs.length page = xs ++ graftRows ys 0 page := by
  induction xs with
  | nil => rfl
  | cons x xs ih =>
    cases page with
    | nil => simp [graftRows]
    | cons p ps =>
      simp only [List.cons_append, List.length_cons, graftRows]
      exact congrArg (List.cons x) ih

lemma graftRows_replicate_append (n : Nat) (x : List Int)
    (ys page : List (List Int)) :
    graftRows (List.replicate n x ++ ys) n page
      = List.replicate n x ++ graftRows ys 0 page := by
  have h := graftRows_append (List.replicate n x) ys page
  rwa [List.length_replicate] at h

lemma zipWith_append_replicate (n : Nat) (x y : List Int) :
    List.zipWith (· ++ ·) (List.replicate n x) (List.replicate n y)
      = List.replicate n (x ++ y) := by
  induction n with
  | zero => rfl
  | succ k ih => simp [List.replicate_succ, ih]

/-- C2: 1-dimensional pages are reassembled by pure concatenation in
arrival order; a 2-dimensional page with a non-zero last-dimension
offset grafts each of its rows onto the accumulated row at the matching
index while a page with last-dimension offset zero appends its rows as
new top-level entries; and the four-page example with page size 500 and
totals 501,501 reassembles to exactly 501 rows of length 3, the first
500 equal to 1,2,3 and the last equal to 91,92,93. -/
theorem mergePageData_reassembles :
    (∀ (pages : List (List Int)) (init : List Int),
      pages.foldl mergePageData1 init = init ++ pages.flatten)
    ∧ mergePageData1 (mergePageData1 [1] [2]) [3] = [1, 2, 3]
    ∧ (∀ (prev page : List (List Int)) (r c : Nat), c ≠ 0 →
        prev.length = r + page.length →
        mergePageData2 prev (r, c) page
          = prev.take r ++ List.zipWith (· ++ ·) (prev.drop r) page)
    ∧ (∀ (prev page : List (List Int)) (r : Nat),
        mergePageData2 prev (r, 0) page = prev ++ page)
    ∧ (mergePageData2 (mergePageData2 (mergePageData2
          (List.replicate 500 ([1, 2] : List Int)) (0, 500)
          (List.replicate 500 [3])) (500, 0) [[91, 92]]) (500, 500) [[93]]
        = List.replicate 500 [1, 2, 3] ++ [[91, 92, 93]]
      ∧ (List.replicate 500 ([1, 2, 3] : List Int) ++ [[91, 92, 93]]).length = 501
      ∧ ∀ row ∈ List.replicate 500 ([1, 2, 3] : List Int) ++ [[91, 92, 93]],
          row.length = 3) := by
  have hfold : ∀ (pages : List (List Int)) (init : List Int),
      pages.foldl mergePageData1 init = init ++ pages.flatten := by
    intro pages
    induction pages with
    | nil => intro init; simp [mergePageData1]
    | cons p ps ih =>
      intro init
      simp [List.foldl_cons, mergePageData1, ih, List.flatten_cons]
  have hgraft : ∀ (prev page : List (List Int)) (r c : Nat), c ≠ 0 →
      prev.length = r + page.length →
      mergePageData2 prev (r, c) page
        = prev.take r ++ List.zipWith (· ++ ·) (prev.drop r) page := by
    intro prev page r c hc hl
    have hr : r ≤ prev.length := by omega
    have hlen : (prev.take r).length = r := by
      simp [List.length_take]
      omega
    calc mergePageData2 prev (r, c) page = graftRows prev r page := by
          simp [mergePageData2, hc]
      _ = graftRows (prev.take r ++ prev.drop r) (prev.take r).length page := by
          rw [List.take_append_drop, hlen]
      _ = prev.take r ++ graftRows (prev.drop r) 0 page := graftRows_append _ _ _
      _ = prev.take r ++ List.zipWith (· ++ ·) (prev.drop r) page := by
          rw [graftRows_zipWith]
          simp [List.length_drop]
          omega
  have happend : ∀ (prev page : List (List Int)) (r : Nat),
      mergePageData2 prev (r, 0) page = prev ++ page := by
    intro prev page r
    simp [mergePageData2]
  refine ⟨hfold, rfl, hgraft, happend, ?_,
    by simp only [List.length_append, List.length_replicate, List.length_cons,
      List.length_nil], ?_⟩
  · have s1 : mergePageData2 (List.replicate 500 ([1, 2] : List Int)) (0, 500)
        (List.replicate 500 [3]) = List.replicate 500 [1, 2, 3] := by
      rw [hgraft _ _ 0 500 (by omega)
        (by simp only [List.length_replicate])]
      simp only [List.take_zero, List.drop_zero, List.nil_append]
      rw [zipWith_append_replicate]
      rfl
    have s2 : mergePageData2 (List.replicate 500 ([1, 2, 3] : List Int)) (500, 0)
        [[91, 92]] = List.replicate 500 [1, 2, 3] ++ [[91, 92]] :=
      happend _ _ 500
    have s3 : mergePageData2 (List.replicate 500 ([1, 2, 3] : List Int)
          ++ [[91, 92]]) (500, 500) [[93]]
        = List.replicate 500 [1, 2, 3] ++ [[91, 92, 93]] := by
      have : mergePageData2 (List.replicate 500 ([1, 2, 3] : List Int)
            ++ [[91, 92]]) (500, 500) [[93]]
          = graftRows (List.replicate 500 ([1, 2, 3] : List Int)
              ++ [[91, 92]]) 500 [[93]] := rfl
      rw [this, graftRows_replicate_append]
      rfl
    rw [s1, s2, s3]
  · intro row hrow
    rcases List.mem_append.mp hrow with hrow | hrow
    · rw [List.eq_of_mem_replicate hrow]
      rfl
    · simp at hrow
      rw [hrow]
      rfl

/-- C2 witness: the 2-dimensional test example: the page at offset 0,2
grafts its rows onto rows 0 and 1 of the accumulated data. -/
theorem mergePageData_reassembles_witness :
    mergePageData2 [[11, 12], [21, 22]] (0, 2) [[13], [23]]
      = [[11, 12, 13], [21, 22, 23]] := by
  rw [mergePageData_reassembles.2.2.1 [[11, 12], [21, 22]] [[13], [23]] 0 2
    (by omega) (by simp)]
  decide
